import Mathlib

/-!
# SynapticLlamas — formal model of the routing, registry and orchestration core

A shallow embedding, in Lean 4, of the parts of the SynapticLlamas code base
that the specification's testable properties talk about:

* `ollama_node.py` — node metrics, the rolling latency window, the load score;
* `node_registry.py` — IP-deduplicated node registration and removal;
* `sollol_load_balancer.py` — `route_request`, fallback lists, the EMA latency
  update of `record_performance`;
* `sollol/hybrid_router.py` — model profiles and the Ollama/RPC routing rule;
* `distributed_orchestrator.py` — long-form focus areas, chunk prompts and the
  narrative extractor;
* `json_pipeline.py` / `agents/base_agent.py` — the standardized output wrapper.

Python floats are modelled as `ℚ`, Python strings as Lean `String` manipulated
through their character lists (so that every definition evaluates by kernel
reduction), Python dicts as insertion-ordered association lists.
-/

namespace SynLlamas

/-! ## Python string helpers -/

/-- Python `url.rstrip('/')`, as used by `OllamaNode.__init__`. -/
def rstripSlashes (s : String) : String :=
  ⟨(s.data.reverse.dropWhile (fun c => c = '/')).reverse⟩

/-- ASCII whitespace recognized by Python `str.strip()`. -/
def isPyWs (c : Char) : Bool :=
  c == ' ' || c == '\t' || c == '\n' || c == '\r' || c == '\x0b' || c == '\x0c'

/-- Python `s.strip()` (both ends, default whitespace). -/
def pyStrip (s : String) : String :=
  ⟨((s.data.dropWhile isPyWs).reverse.dropWhile isPyWs).reverse⟩

/-- Python `s.lower()` (ASCII case folding; model tags and keys are ASCII). -/
def pyLower (s : String) : String := ⟨s.data.map Char.toLower⟩

/-- `pat in s` — substring containment, Python's `in` on strings. -/
def strContains (s pat : String) : Prop := pat.data <:+: s.data

instance (s pat : String) : Decidable (strContains s pat) :=
  inferInstanceAs (Decidable (_ <:+: _))

/-- The suffix of `l` strictly after the first occurrence of `pat`, if `pat`
occurs in `l` at all. -/
def afterFirst (pat : List Char) : List Char → Option (List Char)
  | [] => if pat.isPrefixOf ([] : List Char) then some [] else none
  | c :: rest =>
    if pat.isPrefixOf (c :: rest) then some ((c :: rest).drop pat.length)
    else afterFirst pat rest

/-- Hostname extraction of `NodeRegistry._resolve_host_ip`:
`url.split('://')[1].split(':')[0]` when `'://' in url`, else
`url.split(':')[0]`.  Taking the segment after the first `'://'` up to the
next `':'` coincides with Python's two-stage split, because the second
occurrence of `'://'` (which would end `split('://')[1]`) itself starts
with `':'`. -/
def hostnameOf (url : String) : String :=
  match afterFirst "://".data url.data with
  | some rest => ⟨rest.takeWhile (fun c => c ≠ ':')⟩
  | none => ⟨url.data.takeWhile (fun c => c ≠ ':')⟩

/-! ## `ollama_node.py` — nodes and their metrics -/

/-- `NodeCapabilities` dataclass (the `models_loaded` list is irrelevant to the
claims and omitted). -/
structure NodeCapabilities where
  hasGpu : Bool := false
  gpuCount : Nat := 0
  gpuMemoryMb : Nat := 0
  cpuCores : Nat := 0
  totalMemoryMb : Nat := 0
  deriving Repr, DecidableEq

/-- `NodeMetrics` dataclass.  `avg_response_time` is in seconds, as in the
source. -/
structure NodeMetrics where
  totalRequests : Nat := 0
  failedRequests : Nat := 0
  avgResponseTime : ℚ := 0
  lastResponseTime : ℚ := 0
  isHealthy : Bool := true
  loadScore : ℚ := 0
  deriving Repr, DecidableEq

/-- `OllamaNode`: identity, static data, metrics, and the `_last_request_times`
rolling window backing `_update_avg_response_time`. -/
structure OllamaNode where
  url : String
  name : String
  priority : Int
  capabilities : NodeCapabilities := {}
  metrics : NodeMetrics := {}
  lastRequestTimes : List ℚ := []
  deriving Repr, DecidableEq

/-- `OllamaNode.__init__`: the stored URL is `url.rstrip('/')`, the name
defaults to the URL as given. -/
def mkOllamaNode (url : String) (name : Option String) (priority : Int) : OllamaNode :=
  { url := rstripSlashes url
    name := name.getD url
    priority := priority }

/-- `OllamaNode._update_avg_response_time`, window part: append the new sample
and keep only the last 10 (`pop(0)` removes exactly one element because the
append added exactly one). -/
def updateWindow (times : List ℚ) (elapsed : ℚ) : List ℚ :=
  let t := times ++ [elapsed]
  if 10 < t.length then t.tail else t

/-- `OllamaNode._update_avg_response_time`, average part:
`sum(window) / len(window)`. -/
def windowAvg (times : List ℚ) : ℚ := times.sum / times.length

/-- `OllamaNode.calculate_load_score`: `1.0` when unhealthy, otherwise a
failure-rate component (0–0.5) plus a normalized response-time component
(0–0.5). -/
def calculateLoadScore (n : OllamaNode) : ℚ :=
  if !n.metrics.isHealthy then 1
  else
    let failureRate :=
      if 0 < n.metrics.totalRequests then
        (n.metrics.failedRequests : ℚ) / (n.metrics.totalRequests : ℚ) * (1/2)
      else 0
    let responseComponent := min (n.metrics.avgResponseTime / 10) 1 * (1/2)
    failureRate + responseComponent

/-! ## `sollol_load_balancer.py` — the EMA latency update of
`record_performance` -/

/-- The exponential-moving-average update applied to
`node.metrics.avg_response_time` by `SOLLOLLoadBalancer.record_performance`
(smoothing factor `alpha = 0.3`; a zero previous average means "first
request" and is replaced by the sample). -/
def emaUpdate (oldAvg newSample : ℚ) : ℚ :=
  if oldAvg = 0 then newSample
  else 3/10 * newSample + (1 - 3/10) * oldAvg

/-! Sanity checks of the window update on concrete values. -/

example : updateWindow [1, 2] 3 = [1, 2, 3] := by decide
example : updateWindow [0,0,0,0,0,0,0,0,0,0] 3 = [0,0,0,0,0,0,0,0,0,3] := by decide
example : windowAvg [2, 4] = 3 := by norm_num [windowAvg]

/-! ## `node_registry.py` — the registry -/

/-- Lookup in an insertion-ordered dict modelled as an association list
(Python dicts hold each key at most once; lookup returns the first match). -/
def dictGet? {α β : Type _} [DecidableEq α] : List (α × β) → α → Option β
  | [], _ => none
  | (k, v) :: rest, key => if k = key then some v else dictGet? rest key

/-- The registry's environment: DNS resolution (`socket.gethostbyname`; `none`
models a resolution failure) and the outcome of a node's initial health probe
(`OllamaNode.health_check`, keyed by the node's stored URL). -/
structure RegEnv where
  resolve : String → Option String
  health : String → Bool

/-- Registry state: the `nodes` dict (insertion-ordered, keyed by the URL
string passed to `add_node`) and the `_ip_cache` hostname → IP dict. -/
structure RegState where
  nodes : List (String × OllamaNode) := []
  ipCache : List (String × String) := []
  deriving Repr, DecidableEq

/-- A fresh `NodeRegistry()`. -/
def emptyRegistry : RegState := {}

/-- Pure view of `NodeRegistry._resolve_host_ip` under a fixed DNS
environment: the resolved IP, or the URL itself when resolution fails. -/
def resolveHostIp (env : RegEnv) (url : String) : String :=
  match env.resolve (hostnameOf url) with
  | some ip => ip
  | none => url

/-- `NodeRegistry._resolve_host_ip`, with its cache: consult the cache first,
otherwise resolve and — on success only — cache the result; a resolution
failure returns the URL unchanged and caches nothing. -/
def resolveHostIpSt (env : RegEnv) (st : RegState) (url : String) :
    String × RegState :=
  let h := hostnameOf url
  match dictGet? st.ipCache h with
  | some ip => (ip, st)
  | none =>
    match env.resolve h with
    | some ip => (ip, { st with ipCache := st.ipCache ++ [(h, ip)] })
    | none => (url, st)

/-- The key-scanning loop of `NodeRegistry._is_duplicate_node`. -/
def dupScan (env : RegEnv) (newIp : String) :
    List String → RegState → Option String × RegState
  | [], st => (none, st)
  | u :: rest, st =>
    let r := resolveHostIpSt env st u
    if newIp = r.1 then (some u, r.2) else dupScan env newIp rest r.2

/-- `NodeRegistry._is_duplicate_node`: resolve the candidate URL, then scan
the registered URLs in insertion order for one resolving to the same IP. -/
def isDuplicateNode (env : RegEnv) (st : RegState) (url : String) :
    Option String × RegState :=
  let r := resolveHostIpSt env st url
  dupScan env r.1 (r.2.nodes.map Prod.fst) r.2

/-- `NodeRegistry.add_node` (`auto_probe` only triggers capability probing,
which no claim depends on, and is omitted).  Returns the node or the
`ConnectionError` message, plus the updated registry state. -/
def addNode (env : RegEnv) (st : RegState) (url : String)
    (name : Option String) (priority : Int) :
    Except String OllamaNode × RegState :=
  match dictGet? st.nodes url with
  | some node => (.ok node, st)
  | none =>
    let scan := isDuplicateNode env st url
    match scan.1 with
    | some dupUrl =>
      (.ok ((dictGet? scan.2.nodes dupUrl).getD (mkOllamaNode url name priority)), scan.2)
    | none =>
      let node := mkOllamaNode url name priority
      if env.health node.url then
        (.ok node, { scan.2 with nodes := scan.2.nodes ++ [(url, node)] })
      else
        (.error ("Node " ++ url ++ " is not reachable"), scan.2)

/-- `NodeRegistry.remove_node`: pop the exact URL key if present; no IP
resolution takes place. -/
def removeNode (st : RegState) (url : String) : RegState × Bool :=
  if (dictGet? st.nodes url).isSome then
    ({ st with nodes := st.nodes.eraseP (fun p => p.1 == url) }, true)
  else (st, false)

/-- A request sequence for `add_node`: URL, optional name, priority. -/
def runAdds (env : RegEnv) (reqs : List (String × Option String × Int))
    (st : RegState) : RegState :=
  reqs.foldl (fun s r => (addNode env s r.1 r.2.1 r.2.2).2) st

/-- The IP cache only ever holds successful resolutions. -/
def CacheOk (env : RegEnv) (st : RegState) : Prop :=
  ∀ h ip, (h, ip) ∈ st.ipCache → env.resolve h = some ip

/-- No two registered URLs resolve to the same IP. -/
def NoDupIps (env : RegEnv) (st : RegState) : Prop :=
  (st.nodes.map Prod.fst).Pairwise
    (fun u1 u2 => resolveHostIp env u1 ≠ resolveHostIp env u2)

/-- The EMA update always lands between the previous average and the new
sample (when the previous average is `0` the update returns the sample
itself, which also lies in the interval). -/
theorem emaUpdate_bounds (oldAvg d : ℚ) :
    min oldAvg d ≤ emaUpdate oldAvg d ∧ emaUpdate oldAvg d ≤ max oldAvg d := by
  unfold emaUpdate
  split
  · next h => subst h; exact ⟨min_le_right _ _, le_max_right _ _⟩
  · constructor
    · rcases le_total oldAvg d with h | h
      · rw [min_eq_left h]; linarith
      · rw [min_eq_right h]; linarith
    · rcases le_total oldAvg d with h | h
      · rw [max_eq_right h]; linarith
      · rw [max_eq_left h]; linarith

/-- While the rolling window is not yet full, the mean after appending a
sample lies between the previous mean and the sample. -/
theorem windowAvg_update_bounds (w : List ℚ) (d : ℚ) (hne : w ≠ [])
    (hlen : w.length < 10) :
    min (windowAvg w) d ≤ windowAvg (updateWindow w d) ∧
    windowAvg (updateWindow w d) ≤ max (windowAvg w) d := by
  have hk0 : 0 < w.length := List.length_pos.mpr hne
  have hk : (0:ℚ) < (w.length : ℚ) := by exact_mod_cast hk0
  have hk1 : (0:ℚ) < (w.length : ℚ) + 1 := by linarith
  have hno : ¬ (10 < (w ++ [d]).length) := by
    simp only [List.length_append, List.length_cons, List.length_nil]
    omega
  have hupd : updateWindow w d = w ++ [d] := by
    simp only [updateWindow]
    rw [if_neg hno]
  set p := windowAvg w with hp
  have hS : w.sum = p * (w.length : ℚ) := by
    rw [hp, windowAvg]
    field_simp
  have hnew : windowAvg (updateWindow w d) = (p * (w.length : ℚ) + d) / ((w.length : ℚ) + 1) := by
    rw [hupd, windowAvg]
    rw [List.sum_append, List.length_append, hS]
    simp only [List.sum_cons, List.sum_nil, List.length_cons, List.length_nil, add_zero]
    push_cast
    ring_nf
  rw [hnew]
  rcases le_total p d with h | h
  · rw [min_eq_left h, max_eq_right h]
    constructor
    · rw [le_div_iff₀ hk1]
      ring_nf
      linarith
    · rw [div_le_iff₀ hk1]
      have : p * (w.length : ℚ) ≤ d * (w.length : ℚ) :=
        mul_le_mul_of_nonneg_right h hk.le
      ring_nf
      linarith
  · rw [min_eq_right h, max_eq_left h]
    constructor
    · rw [le_div_iff₀ hk1]
      have : d * (w.length : ℚ) ≤ p * (w.length : ℚ) :=
        mul_le_mul_of_nonneg_right h hk.le
      ring_nf
      linarith
    · rw [div_le_iff₀ hk1]
      ring_nf
      linarith

/-- **C3** (amended).  The EMA update of
`SOLLOLLoadBalancer.record_performance` always leaves the average latency in
the closed interval between its previous value and the recorded sample; the
rolling-window update of `OllamaNode._update_avg_response_time` satisfies the
same bound while the window holds fewer than 10 samples (once the window is
full, evicting the oldest sample can move the mean outside the interval —
see the counterexample). -/
theorem avg_latency_update_bounds :
    (∀ oldAvg d : ℚ,
      min oldAvg d ≤ emaUpdate oldAvg d ∧ emaUpdate oldAvg d ≤ max oldAvg d) ∧
    (∀ (w : List ℚ) (d : ℚ), w ≠ [] → w.length < 10 →
      min (windowAvg w) d ≤ windowAvg (updateWindow w d) ∧
      windowAvg (updateWindow w d) ≤ max (windowAvg w) d) :=
  ⟨emaUpdate_bounds, windowAvg_update_bounds⟩

/-- Witness for `avg_latency_update_bounds` at a window `[2]` and sample `4`. -/
theorem avg_latency_update_bounds_witness :
    min (windowAvg [2]) 4 ≤ windowAvg (updateWindow [2] 4) ∧
    windowAvg (updateWindow [2] 4) ≤ max (windowAvg [2]) 4 :=
  avg_latency_update_bounds.2 [2] 4 (by simp) (by simp)

/-- **C3** counterexample.  With the rolling window full
(`[10, 0, …, 0]`, previous average `1`) a sample `d = 1 ≥ 0` evicts the old
`10`, and the new average `1/10` falls strictly below the closed interval
`[min(1, 1), max(1, 1)] = {1}` demanded by the claim. -/
theorem avg_latency_window_counterexample :
    windowAvg [10,0,0,0,0,0,0,0,0,0] = 1 ∧
    updateWindow [10,0,0,0,0,0,0,0,0,0] 1 = [0,0,0,0,0,0,0,0,0,1] ∧
    windowAvg (updateWindow [10,0,0,0,0,0,0,0,0,0] 1) = 1/10 ∧
    ¬ (min (windowAvg [10,0,0,0,0,0,0,0,0,0]) 1 ≤
        windowAvg (updateWindow [10,0,0,0,0,0,0,0,0,0] 1)) := by
  have h1 : windowAvg [10,0,0,0,0,0,0,0,0,0] = (1:ℚ) := by
    norm_num [windowAvg]
  have h2 : updateWindow [10,0,0,0,0,0,0,0,0,0] 1 = [0,0,0,0,0,0,0,0,0,(1:ℚ)] := by
    decide
  have h3 : windowAvg (updateWindow [10,0,0,0,0,0,0,0,0,0] 1) = 1/10 := by
    rw [h2]; norm_num [windowAvg]
  refine ⟨h1, h2, h3, ?_⟩
  rw [h1, h3]
  norm_num

/-! ### Registry lemmas -/

theorem dictGet?_mem {α β : Type _} [DecidableEq α] {l : List (α × β)}
    {k : α} {v : β} (h : dictGet? l k = some v) : (k, v) ∈ l := by
  induction l with
  | nil => simp [dictGet?] at h
  | cons p rest ih =>
    obtain ⟨k', v'⟩ := p
    by_cases hk : k' = k
    · subst hk
      simp [dictGet?] at h
      subst h
      exact List.mem_cons_self _ _
    · simp [dictGet?, hk] at h
      exact List.mem_cons_of_mem _ (ih h)

theorem dictGet?_isSome_of_mem_keys {α β : Type _} [DecidableEq α]
    {l : List (α × β)} {k : α} (h : k ∈ l.map Prod.fst) :
    (dictGet? l k).isSome := by
  induction l with
  | nil => simp at h
  | cons p rest ih =>
    obtain ⟨k', v'⟩ := p
    by_cases hk : k' = k
    · subst hk; simp [dictGet?]
    · simp [dictGet?, hk]
      rcases List.mem_cons.mp h with h' | h'
      · exact absurd h'.symm hk
      · exact ih h'

theorem resolveHostIpSt_nodes (env : RegEnv) (st : RegState) (url : String) :
    (resolveHostIpSt env st url).2.nodes = st.nodes := by
  unfold resolveHostIpSt
  dsimp only
  split
  · rfl
  · split <;> rfl

theorem resolveHostIpSt_fst (env : RegEnv) (st : RegState) (url : String)
    (hc : CacheOk env st) :
    (resolveHostIpSt env st url).1 = resolveHostIp env url := by
  unfold resolveHostIpSt resolveHostIp
  dsimp only
  split
  · next ip heq =>
    rw [hc _ _ (dictGet?_mem heq)]
  · split
    · rfl
    · rfl

theorem resolveHostIpSt_cacheOk (env : RegEnv) (st : RegState) (url : String)
    (hc : CacheOk env st) : CacheOk env (resolveHostIpSt env st url).2 := by
  unfold resolveHostIpSt
  dsimp only
  split
  · exact hc
  · split
    · next ip heq =>
      intro h' ip' hmem
      simp only [List.mem_append, List.mem_singleton, Prod.mk.injEq] at hmem
      rcases hmem with hmem | ⟨rfl, rfl⟩
      · exact hc _ _ hmem
      · exact heq
    · exact hc

theorem dupScan_nodes (env : RegEnv) (newIp : String) (keys : List String)
    (st : RegState) : (dupScan env newIp keys st).2.nodes = st.nodes := by
  induction keys generalizing st with
  | nil => rfl
  | cons u rest ih =>
    unfold dupScan
    dsimp only
    split
    · exact resolveHostIpSt_nodes env st u
    · rw [ih]
      exact resolveHostIpSt_nodes env st u

theorem dupScan_cacheOk (env : RegEnv) (newIp : String) (keys : List String)
    (st : RegState) (hc : CacheOk env st) :
    CacheOk env (dupScan env newIp keys st).2 := by
  induction keys generalizing st with
  | nil => exact hc
  | cons u rest ih =>
    unfold dupScan
    dsimp only
    split
    · exact resolveHostIpSt_cacheOk env st u hc
    · exact ih _ (resolveHostIpSt_cacheOk env st u hc)

theorem dupScan_none (env : RegEnv) (newIp : String) (keys : List String)
    (st : RegState) (hc : CacheOk env st)
    (h : (dupScan env newIp keys st).1 = none) :
    ∀ u ∈ keys, resolveHostIp env u ≠ newIp := by
  induction keys generalizing st with
  | nil => intro u hu; cases hu
  | cons u rest ih =>
    unfold dupScan at h
    dsimp only at h
    intro v hv
    rcases List.mem_cons.mp hv with rfl | hv'
    · by_cases hh : newIp = (resolveHostIpSt env st v).1
      · rw [if_pos hh] at h; cases h
      · rw [resolveHostIpSt_fst env st v hc] at hh
        exact fun he => hh he.symm
    · by_cases hh : newIp = (resolveHostIpSt env st u).1
      · rw [if_pos hh] at h; cases h
      · rw [if_neg hh] at h
        exact ih _ (resolveHostIpSt_cacheOk env st u hc) h v hv'

theorem dupScan_some (env : RegEnv) (newIp : String) (keys : List String)
    (st : RegState) (u : String) (hc : CacheOk env st)
    (h : (dupScan env newIp keys st).1 = some u) :
    u ∈ keys ∧ resolveHostIp env u = newIp := by
  induction keys generalizing st with
  | nil => cases h
  | cons v rest ih =>
    unfold dupScan at h
    dsimp only at h
    by_cases hh : newIp = (resolveHostIpSt env st v).1
    · rw [if_pos hh] at h
      obtain rfl : v = u := by cases h; rfl
      refine ⟨List.mem_cons_self _ _, ?_⟩
      rw [← resolveHostIpSt_fst env st v hc, hh]
    · rw [if_neg hh] at h
      obtain ⟨h1, h2⟩ := ih _ (resolveHostIpSt_cacheOk env st v hc) h
      exact ⟨List.mem_cons_of_mem _ h1, h2⟩

theorem isDuplicateNode_nodes (env : RegEnv) (st : RegState) (url : String) :
    (isDuplicateNode env st url).2.nodes = st.nodes := by
  unfold isDuplicateNode
  dsimp only
  rw [dupScan_nodes, resolveHostIpSt_nodes]

theorem isDuplicateNode_cacheOk (env : RegEnv) (st : RegState) (url : String)
    (hc : CacheOk env st) : CacheOk env (isDuplicateNode env st url).2 := by
  unfold isDuplicateNode
  dsimp only
  exact dupScan_cacheOk _ _ _ _ (resolveHostIpSt_cacheOk env st url hc)

theorem isDuplicateNode_none (env : RegEnv) (st : RegState) (url : String)
    (hc : CacheOk env st) (h : (isDuplicateNode env st url).1 = none) :
    ∀ u ∈ st.nodes.map Prod.fst,
      resolveHostIp env u ≠ resolveHostIp env url := by
  unfold isDuplicateNode at h
  dsimp only at h
  intro u hu
  have h' := dupScan_none env _ _ _
    (resolveHostIpSt_cacheOk env st url hc) h u
  rw [resolveHostIpSt_nodes] at h'
  rw [resolveHostIpSt_fst env st url hc] at h'
  exact h' hu

theorem isDuplicateNode_some (env : RegEnv) (st : RegState) (url u : String)
    (hc : CacheOk env st) (h : (isDuplicateNode env st url).1 = some u) :
    u ∈ st.nodes.map Prod.fst ∧
      resolveHostIp env u = resolveHostIp env url := by
  unfold isDuplicateNode at h
  dsimp only at h
  have h' := dupScan_some env _ _ _ u
    (resolveHostIpSt_cacheOk env st url hc) h
  rw [resolveHostIpSt_nodes] at h'
  rw [resolveHostIpSt_fst env st url hc] at h'
  exact h'

theorem addNode_cacheOk (env : RegEnv) (st : RegState) (url : String)
    (name : Option String) (prio : Int) (hc : CacheOk env st) :
    CacheOk env (addNode env st url name prio).2 := by
  have hc1 := isDuplicateNode_cacheOk env st url hc
  rcases hget : dictGet? st.nodes url with _ | node
  · rcases hscan : (isDuplicateNode env st url).1 with _ | dupUrl
    · cases hhealth : env.health (mkOllamaNode url name prio).url
      · simp only [addNode, hget, hscan, hhealth]
        exact hc1
      · simp only [addNode, hget, hscan, hhealth, if_true]
        intro h ip hmem
        exact hc1 h ip hmem
    · simp only [addNode, hget, hscan]
      exact hc1
  · simp only [addNode, hget]
    exact hc

theorem addNode_noDupIps (env : RegEnv) (st : RegState) (url : String)
    (name : Option String) (prio : Int) (hc : CacheOk env st)
    (hnd : NoDupIps env st) :
    NoDupIps env (addNode env st url name prio).2 := by
  have hnd1 : NoDupIps env (isDuplicateNode env st url).2 := by
    unfold NoDupIps
    rw [isDuplicateNode_nodes]
    exact hnd
  rcases hget : dictGet? st.nodes url with _ | node
  · rcases hscan : (isDuplicateNode env st url).1 with _ | dupUrl
    · cases hhealth : env.health (mkOllamaNode url name prio).url
      · simp only [addNode, hget, hscan, hhealth]
        exact hnd1
      · simp only [addNode, hget, hscan, hhealth, if_true]
        unfold NoDupIps
        dsimp only
        rw [List.map_append, isDuplicateNode_nodes]
        rw [List.pairwise_append]
        refine ⟨hnd, List.pairwise_singleton _ _, ?_⟩
        intro u hu v hv
        simp only [List.map_cons, List.map_nil, List.mem_singleton] at hv
        rw [hv]
        exact isDuplicateNode_none env st url hc hscan u hu
    · simp only [addNode, hget, hscan]
      exact hnd1
  · simp only [addNode, hget]
    exact hnd

theorem runAdds_inv (env : RegEnv) (reqs : List (String × Option String × Int))
    (st : RegState) (h : CacheOk env st ∧ NoDupIps env st) :
    CacheOk env (runAdds env reqs st) ∧ NoDupIps env (runAdds env reqs st) := by
  induction reqs generalizing st with
  | nil => exact h
  | cons r rest ih =>
    have h1 := addNode_cacheOk env st r.1 r.2.1 r.2.2 h.1
    have h2 := addNode_noDupIps env st r.1 r.2.1 r.2.2 h.1 h.2
    exact ih _ ⟨h1, h2⟩

/-- **C4** (confirmed).  (1) Starting from an empty registry, after any
sequence of `add_node` calls no two registered nodes' URLs resolve to the same
IP address.  (2) An `add_node` whose URL is new but resolves to the IP of an
already-registered node returns a pre-existing registered node and leaves the
registry's membership unchanged. -/
theorem add_node_dedup_invariant :
    (∀ (env : RegEnv) (reqs : List (String × Option String × Int)),
      NoDupIps env (runAdds env reqs emptyRegistry)) ∧
    (∀ (env : RegEnv) (st : RegState) (url existing : String)
        (name : Option String) (prio : Int) (n' : OllamaNode),
      CacheOk env st →
      dictGet? st.nodes url = none →
      dictGet? st.nodes existing = some n' →
      resolveHostIp env existing = resolveHostIp env url →
      (∃ u0 n0, dictGet? st.nodes u0 = some n0 ∧
        (addNode env st url name prio).1 = .ok n0) ∧
      (addNode env st url name prio).2.nodes = st.nodes) := by
  constructor
  · intro env reqs
    refine (runAdds_inv env reqs emptyRegistry ⟨?_, ?_⟩).2
    · intro h ip hmem; cases hmem
    · exact List.Pairwise.nil
  · intro env st url existing name prio n' hc hurl hex hip
    have hkey : existing ∈ st.nodes.map Prod.fst :=
      List.mem_map.mpr ⟨(existing, n'), dictGet?_mem hex, rfl⟩
    have hdup : (isDuplicateNode env st url).1 ≠ none := fun h =>
      isDuplicateNode_none env st url hc h existing hkey hip
    rcases hscan : (isDuplicateNode env st url).1 with _ | dupUrl
    · exact absurd hscan hdup
    · obtain ⟨hmem, _⟩ := isDuplicateNode_some env st url dupUrl hc hscan
      have hsome : (dictGet? st.nodes dupUrl).isSome :=
        dictGet?_isSome_of_mem_keys hmem
      rcases hval : dictGet? st.nodes dupUrl with _ | n0
      · rw [hval] at hsome; cases hsome
      · have hval2 : dictGet? (isDuplicateNode env st url).2.nodes dupUrl = some n0 := by
          rw [isDuplicateNode_nodes]; exact hval
        constructor
        · refine ⟨dupUrl, n0, hval, ?_⟩
          simp only [addNode, hurl, hscan, hval2]
          rfl
        · simp only [addNode, hurl, hscan]
          exact isDuplicateNode_nodes env st url

/-- A concrete environment where `localhost` and `127.0.0.1` resolve to the
same IP and every probe succeeds (spec scenario "Add + dedup"). -/
def envLoc : RegEnv :=
  { resolve := fun h =>
      if h = "localhost" then some "127.0.0.1"
      else if h = "127.0.0.1" then some "127.0.0.1"
      else none
    health := fun _ => true }

/-- The registry after `add_node("http://localhost:11434")` on a fresh
registry under `envLoc`. -/
def stLoc : RegState :=
  (addNode envLoc emptyRegistry "http://localhost:11434" none 0).2

theorem stLoc_cacheOk : CacheOk envLoc stLoc := by
  intro h ip hmem
  have hcache : stLoc.ipCache = [("localhost", "127.0.0.1")] := by decide
  rw [hcache] at hmem
  simp only [List.mem_singleton, Prod.mk.injEq] at hmem
  obtain ⟨rfl, rfl⟩ := hmem
  decide

/-- Witness for `add_node_dedup_invariant`: adding `http://127.0.0.1:11434`
after `http://localhost:11434` returns the already-registered node and does
not grow the registry. -/
theorem add_node_dedup_invariant_witness :
    (∃ u0 n0, dictGet? stLoc.nodes u0 = some n0 ∧
      (addNode envLoc stLoc "http://127.0.0.1:11434" none 0).1 = .ok n0) ∧
    (addNode envLoc stLoc "http://127.0.0.1:11434" none 0).2.nodes = stLoc.nodes :=
  add_node_dedup_invariant.2 envLoc stLoc "http://127.0.0.1:11434"
    "http://localhost:11434" none 0 (mkOllamaNode "http://localhost:11434" none 0)
    stLoc_cacheOk (by decide) (by decide) (by decide)

/-- **C5** (confirmed).  When the URL matches no existing entry by URL or by
resolved IP and the initial health probe fails, `add_node` raises a
`ConnectionError` and the registry's membership is unchanged. -/
theorem add_node_unreachable_raises (env : RegEnv) (st : RegState)
    (url : String) (name : Option String) (prio : Int)
    (hc : CacheOk env st)
    (hurl : dictGet? st.nodes url = none)
    (hip : ∀ u ∈ st.nodes.map Prod.fst,
      resolveHostIp env u ≠ resolveHostIp env url)
    (hhealth : env.health (rstripSlashes url) = false) :
    (addNode env st url name prio).1 =
      .error ("Node " ++ url ++ " is not reachable") ∧
    (addNode env st url name prio).2.nodes = st.nodes := by
  have hscan : (isDuplicateNode env st url).1 = none := by
    rcases h : (isDuplicateNode env st url).1 with _ | u
    · rfl
    · obtain ⟨hmem, heq⟩ := isDuplicateNode_some env st url u hc h
      exact absurd heq (hip u hmem)
  have hhealth' : env.health (mkOllamaNode url name prio).url = false := hhealth
  constructor
  · simp only [addNode, hurl, hscan, hhealth', Bool.false_eq_true, if_false]
  · simp only [addNode, hurl, hscan, hhealth', Bool.false_eq_true, if_false]
    exact isDuplicateNode_nodes env st url

/-- An environment with no DNS and failing probes. -/
def envDead : RegEnv := { resolve := fun _ => none, health := fun _ => false }

/-- Witness for `add_node_unreachable_raises`: adding an unreachable node to
an empty registry raises and adds nothing. -/
theorem add_node_unreachable_raises_witness :
    (addNode envDead emptyRegistry "http://h:1" none 0).1 =
      .error ("Node " ++ "http://h:1" ++ " is not reachable") ∧
    (addNode envDead emptyRegistry "http://h:1" none 0).2.nodes =
      emptyRegistry.nodes :=
  add_node_unreachable_raises envDead emptyRegistry "http://h:1" none 0
    (by intro h ip hmem; cases hmem) (by decide) (by intro u hu; cases hu)
    (by decide)

/-- **C10** (amended).  `remove_node` matches by the exact textual URL key
only: a present key is popped and the call returns `True`; a URL that is not
a key returns `False` and leaves the registry unchanged, even when it
resolves to the same IP as a registered node's URL.  (Equality by resolved
IP applies to `add_node` deduplication, not to removal.) -/
theorem remove_node_textual_only :
    (∀ (st : RegState) (url : String),
      (dictGet? st.nodes url).isSome = true →
      (removeNode st url).2 = true ∧
      (removeNode st url).1.nodes = st.nodes.eraseP (fun p => p.1 == url)) ∧
    (∀ (env : RegEnv) (st : RegState) (url u' : String) (n' : OllamaNode),
      dictGet? st.nodes u' = some n' →
      resolveHostIp env u' = resolveHostIp env url →
      dictGet? st.nodes url = none →
      removeNode st url = (st, false)) := by
  constructor
  · intro st url h
    unfold removeNode
    rw [if_pos h]
    exact ⟨rfl, rfl⟩
  · intro env st url u' n' _ _ h
    unfold removeNode
    rw [if_neg (by rw [h]; simp)]

/-- Witness for `remove_node_textual_only`: removing the exact registered URL
pops it and returns `True`. -/
theorem remove_node_textual_only_witness :
    (removeNode stLoc "http://localhost:11434").2 = true ∧
    (removeNode stLoc "http://localhost:11434").1.nodes =
      stLoc.nodes.eraseP (fun p => p.1 == "http://localhost:11434") :=
  remove_node_textual_only.1 stLoc "http://localhost:11434" (by decide)

/-- **C10** counterexample.  `http://127.0.0.1:11434` resolves to the same IP
as the registered `http://localhost:11434`, yet `remove_node` returns `False`
and removes nothing, because removal compares URL strings textually. -/
theorem remove_node_ip_counterexample :
    dictGet? stLoc.nodes "http://localhost:11434" =
      some (mkOllamaNode "http://localhost:11434" none 0) ∧
    resolveHostIp envLoc "http://localhost:11434" =
      resolveHostIp envLoc "http://127.0.0.1:11434" ∧
    removeNode stLoc "http://127.0.0.1:11434" = (stLoc, false) :=
  ⟨by decide, by decide, by decide⟩

/-! ## `sollol_load_balancer.py` — `route_request` and fallbacks -/

/-- `NodeRegistry.get_healthy_nodes`: registered nodes, in insertion order,
whose metrics flag them healthy. -/
def getHealthyNodes (st : RegState) : List OllamaNode :=
  (st.nodes.map Prod.snd).filter (fun n => n.metrics.isHealthy)

/-- `RoutingDecision` (the analyzer's `TaskContext`, the reasoning string and
the timestamp carry no information the claims touch, and are omitted). -/
structure RoutingDecision where
  node : OllamaNode
  decisionScore : ℚ
  fallbackNodes : List OllamaNode
  deriving Repr, DecidableEq

/-- The shape of the host-metadata dict `_node_to_host_metadata` is written
to return.  Against this source tree the function never completes (see
`nodeToHostMetadata`), so no value of this type is ever produced by the
embedded code. -/
structure HostMeta where
  url : String
  hasGpu : Bool
  cpuLoad : ℚ
  latencyMs : ℚ
  successRate : ℚ
  gpuFreeMem : ℚ
  priority : Int
  deriving Repr, DecidableEq

/-- `SOLLOLLoadBalancer._node_to_host_metadata`, as it behaves against this
source tree's `NodeMetrics`: `calculate_load_score()` succeeds, but the
conditional read of `node.metrics.successful_requests` (evaluated only when
`total_requests > 0`) and the unconditional read of
`node.metrics.avg_latency` (line 434) hit attributes `NodeMetrics` does not
define, so the call always raises `AttributeError` — the one for
`successful_requests` when the node has traffic, for `avg_latency`
otherwise.  (The later `node.is_healthy` read at line 439, also undefined on
`OllamaNode`, is never reached.)  Exceptions are modelled as `Except.error`
carrying the exception type and message. -/
def nodeToHostMetadata (n : OllamaNode) : Except String HostMeta :=
  if 0 < n.metrics.totalRequests then
    .error "AttributeError: 'NodeMetrics' object has no attribute 'successful_requests'"
  else
    .error "AttributeError: 'NodeMetrics' object has no attribute 'avg_latency'"

/-- Step 3 of `route_request`: the list comprehension
`[self._node_to_host_metadata(node) for node in healthy_nodes]`, evaluated
left to right, propagating the first exception. -/
def buildHostMetas : List OllamaNode → Except String (List HostMeta)
  | [] => .ok []
  | n :: rest =>
    match nodeToHostMetadata n with
    | .error e => .error e
    | .ok m =>
      match buildHostMetas rest with
      | .error e => .error e
      | .ok ms => .ok (m :: ms)

/-- `SOLLOLLoadBalancer.route_request`.  The intelligence engine
(`sollol.intelligence`, not among this repository's source files) is
abstracted by the host URL it selects and the score it reports; the theorems
below hold for every possible value of both.  Raised exceptions are modelled
by `Except.error`: the `RuntimeError` on an empty healthy list, and the
`AttributeError` that Step 3's metadata construction raises.  The selection
and fallback construction of Steps 4–7 are embedded as written, but are
unreachable in this source tree because `buildHostMetas` fails on every
non-empty list. -/
def routeRequest (st : RegState) (selectedHost : String) (selectedScore : ℚ) :
    Except String RoutingDecision :=
  match getHealthyNodes st with
  | [] => .error "No healthy Ollama nodes available"
  | n0 :: rest =>
    match buildHostMetas (n0 :: rest) with
    | .error e => .error e
    | .ok _availableHosts =>
      let healthy := n0 :: rest
      let found := healthy.find? (fun n => n.url == selectedHost)
      let selected := found.getD n0
      .ok { node := selected
            decisionScore := if found.isSome then selectedScore else 50
            fallbackNodes := healthy.filter (fun n => n.url != selected.url) }

/-- The metadata comprehension fails on every non-empty node list. -/
theorem buildHostMetas_cons_error (n : OllamaNode) (rest : List OllamaNode) :
    ∃ e, buildHostMetas (n :: rest) = .error e := by
  by_cases h : 0 < n.metrics.totalRequests
  · exact ⟨_, by rw [buildHostMetas, nodeToHostMetadata, if_pos h]⟩
  · exact ⟨_, by rw [buildHostMetas, nodeToHostMetadata, if_neg h]⟩

/-- **C1** (code bug).  `route_request` raises `RuntimeError` when no healthy
node exists, as the claim says; but whenever at least one healthy node
exists, Step 3's `_node_to_host_metadata` raises `AttributeError` (this
source tree's `NodeMetrics` defines neither `successful_requests` nor
`avg_latency`), so the call never returns a `RoutingDecision` at all — in
particular never one choosing a healthy node.  Concretely, on the one-node
registry `stLoc` the call dies on the `avg_latency` read. -/
theorem route_request_attribute_error :
    (∀ (st : RegState) (sel : String) (score : ℚ),
      getHealthyNodes st = [] →
      routeRequest st sel score = .error "No healthy Ollama nodes available") ∧
    (∀ (st : RegState) (sel : String) (score : ℚ) (d : RoutingDecision),
      routeRequest st sel score ≠ .ok d) ∧
    routeRequest stLoc "http://localhost:11434" 80 =
      .error "AttributeError: 'NodeMetrics' object has no attribute 'avg_latency'" := by
  refine ⟨?_, ?_, by rfl⟩
  · intro st sel score h
    rw [routeRequest, h]
  · intro st sel score d h
    rcases hh : getHealthyNodes st with _ | ⟨n0, rest⟩
    · rw [routeRequest, hh] at h
      cases h
    · rw [routeRequest, hh] at h
      dsimp only at h
      obtain ⟨e, he⟩ := buildHostMetas_cons_error n0 rest
      rw [he] at h
      cases h

/-- Witness for `route_request_attribute_error`: the empty registry raises
the `RuntimeError`. -/
theorem route_request_attribute_error_witness :
    routeRequest emptyRegistry "http://x:1" 5 =
      .error "No healthy Ollama nodes available" :=
  route_request_attribute_error.1 emptyRegistry "http://x:1" 5 (by rfl)

/-- A healthy node with no traffic yet. -/
def nodeS : OllamaNode := mkOllamaNode "http://s:1" none 0

/-- A healthy node with a slow average response (5 s). -/
def nodeB : OllamaNode :=
  { mkOllamaNode "http://b:1" none 0 with
      metrics := { avgResponseTime := 5 } }

/-- A healthy node with a fast average response. -/
def nodeC : OllamaNode := mkOllamaNode "http://c:1" none 0

/-- A registry holding the three nodes above, in insertion order S, B, C. -/
def stABC : RegState :=
  { nodes := [("http://s:1", nodeS), ("http://b:1", nodeB), ("http://c:1", nodeC)] }

/-- **C2** (code bug).  The claim quantifies over routing decisions, but this
source tree produces none: with three healthy nodes registered,
`route_request` raises `AttributeError` inside `_node_to_host_metadata`
(Step 3) before Step 6 would build `fallback_nodes`, so no fallback list —
sorted or otherwise — ever exists.  (Steps 4–7, embedded in `routeRequest`'s
unreachable `ok` branch, would moreover keep registry order: the
comprehension at lines 159–162 never sorts, despite its own
"sorted by score" comment.) -/
theorem route_request_no_fallback_list :
    getHealthyNodes stABC = [nodeS, nodeB, nodeC] ∧
    routeRequest stABC "http://s:1" 70 =
      .error "AttributeError: 'NodeMetrics' object has no attribute 'avg_latency'" := by
  exact ⟨by rfl, by rfl⟩

/-! ## `sollol/hybrid_router.py` — model profiles and the routing rule -/

/-- Boolean substring containment (Python `in` on strings). -/
def strContainsB (s pat : String) : Bool := decide (pat.data <:+: s.data)

/-- `ModelProfile` dataclass (`parameter_count` in billions). -/
structure ModelProfile where
  name : String
  parameterCount : Int
  estimatedMemoryGb : ℚ
  requiresDistributed : Bool
  numLayers : Int
  deriving Repr, DecidableEq

/-- The built-in `MODEL_PROFILES` table, keyed by tag. -/
def modelProfiles : List (String × ModelProfile) :=
  [ ("llama3.2", ⟨"llama3.2", 3, 5/2, false, 32⟩),
    ("llama3.2:3b", ⟨"llama3.2:3b", 3, 5/2, false, 32⟩),
    ("phi", ⟨"phi", 3, 3/2, false, 32⟩),
    ("phi3", ⟨"phi3", 4, 2, false, 32⟩),
    ("gemma:7b", ⟨"gemma:7b", 7, 5, false, 28⟩),
    ("llama3:8b", ⟨"llama3:8b", 8, 6, false, 32⟩),
    ("llama3.1:8b", ⟨"llama3.1:8b", 8, 6, false, 32⟩),
    ("mistral:7b", ⟨"mistral:7b", 7, 5, false, 32⟩),
    ("llama2:7b", ⟨"llama2:7b", 7, 5, false, 32⟩),
    ("llama2:13b", ⟨"llama2:13b", 13, 9, false, 40⟩),
    ("llama2:70b", ⟨"llama2:70b", 70, 40, true, 80⟩),
    ("llama3:70b", ⟨"llama3:70b", 70, 40, true, 80⟩),
    ("llama3.1:70b", ⟨"llama3.1:70b", 70, 40, true, 80⟩),
    ("mixtral:8x7b", ⟨"mixtral:8x7b", 47, 26, true, 32⟩),
    ("qwen2.5:72b", ⟨"qwen2.5:72b", 72, 42, true, 80⟩),
    ("llama3.1:405b", ⟨"llama3.1:405b", 405, 230, true, 126⟩),
    ("mixtral:8x22b", ⟨"mixtral:8x22b", 141, 80, true, 56⟩) ]

/-- `HybridRouter._estimate_model_profile`: the parameter count is parsed by
substring tests on the lowercased name, largest pattern first, defaulting to
8B; memory ≈ 0.6 GB per billion parameters; distributed is required only
above 70B; layers estimated as `max(32, params)`. -/
def estimateModelProfile (model : String) : ModelProfile :=
  let ml := pyLower model
  let paramCount : Int :=
    if strContainsB ml "405b" then 405
    else if strContainsB ml "70b" then 70
    else if strContainsB ml "34b" then 34
    else if strContainsB ml "13b" then 13
    else if strContainsB ml "8b" then 8
    else if strContainsB ml "7b" then 7
    else if strContainsB ml "3b" then 3
    else if strContainsB ml "1b" then 1
    else 8
  { name := model
    parameterCount := paramCount
    estimatedMemoryGb := (paramCount : ℚ) * (3/5)
    requiresDistributed := decide ((70:Int) < paramCount)
    numLayers := max 32 paramCount }

/-- `HybridRouter._get_model_profile`: direct lookup of the normalized tag,
then the base name before the first `':'`, then estimation from the name. -/
def getModelProfile (model : String) : ModelProfile :=
  let modelKey := pyStrip (pyLower model)
  match dictGet? modelProfiles modelKey with
  | some p => p
  | none =>
    match dictGet? modelProfiles ⟨modelKey.data.takeWhile (fun c => c ≠ ':')⟩ with
    | some p => p
    | none => estimateModelProfile model

/-- `HybridRouter.should_use_distributed`. -/
def shouldUseDistributed (enableDistributed : Bool) (model : String) : Bool :=
  if !enableDistributed then false
  else
    let profile := getModelProfile model
    if profile.parameterCount ≤ 13 then false
    else if profile.parameterCount ≤ 70 then profile.requiresDistributed
    else true

/-- The medium-model routing rule exactly as the claim states it (spec §4.8):
a 14–70B model goes to Ollama iff some single node's free GPU memory covers
the estimated requirement, to the RPC cluster otherwise. -/
def claimRouteDistributed (profile : ModelProfile) (maxFreeGpuMemGb : ℚ) : Bool :=
  if profile.parameterCount ≤ 13 then false
  else if profile.parameterCount ≤ 70 then
    !(decide (profile.estimatedMemoryGb ≤ maxFreeGpuMemGb))
  else true

/-- **C6** counterexample.  `mixtral:8x7b` is a 47B model (14–70B band) whose
profile estimates 26 GB; even with a node offering 48 GB of free GPU memory
— which the claim says must keep it on Ollama — `should_use_distributed`
returns `True`, because the code consults only the profile's static
`requires_distributed` flag and never any node's free GPU memory. -/
theorem hybrid_routing_counterexample :
    (getModelProfile "mixtral:8x7b").parameterCount = 47 ∧
    (getModelProfile "mixtral:8x7b").estimatedMemoryGb ≤ 48 ∧
    claimRouteDistributed (getModelProfile "mixtral:8x7b") 48 = false ∧
    shouldUseDistributed true "mixtral:8x7b" = true := by
  refine ⟨by decide, by decide, by decide, by decide⟩

/-- **C6** (amended).  With distributed inference enabled: models of at most
13B parameters go to the Ollama pool; 14–70B models go to the RPC cluster iff
their profile's static `requires_distributed` flag is set (no GPU-memory
check is performed); models above 70B go to the RPC cluster.  For a tag
absent from the built-in table the profile is estimated from the name
(substring patterns `405b … 1b`), its parameter count defaults to 8B when no
pattern matches, and its `requires_distributed` flag is set only above 70B —
so name-estimated 14–70B models always stay on Ollama. -/
theorem hybrid_routing_rule :
    ∀ (model : String),
      shouldUseDistributed false model = false ∧
      ((getModelProfile model).parameterCount ≤ 13 →
        shouldUseDistributed true model = false) ∧
      (13 < (getModelProfile model).parameterCount →
        (getModelProfile model).parameterCount ≤ 70 →
        shouldUseDistributed true model =
          (getModelProfile model).requiresDistributed) ∧
      (70 < (getModelProfile model).parameterCount →
        shouldUseDistributed true model = true) ∧
      (dictGet? modelProfiles (pyStrip (pyLower model)) = none →
        dictGet? modelProfiles
          ⟨(pyStrip (pyLower model)).data.takeWhile (fun c => c ≠ ':')⟩ = none →
        getModelProfile model = estimateModelProfile model) ∧
      (estimateModelProfile model).requiresDistributed =
        decide (70 < (estimateModelProfile model).parameterCount) ∧
      ((∀ pat ∈ (["405b","70b","34b","13b","8b","7b","3b","1b"] : List String),
          strContainsB (pyLower model) pat = false) →
        (estimateModelProfile model).parameterCount = 8) := by
  intro model
  have hsud : shouldUseDistributed true model =
      (if (getModelProfile model).parameterCount ≤ 13 then false
       else if (getModelProfile model).parameterCount ≤ 70 then
         (getModelProfile model).requiresDistributed
       else true) := rfl
  refine ⟨rfl, ?_, ?_, ?_, ?_, rfl, ?_⟩
  · intro h
    rw [hsud, if_pos h]
  · intro h1 h2
    rw [hsud, if_neg (by omega), if_pos h2]
  · intro h
    rw [hsud, if_neg (by omega), if_neg (by omega)]
  · intro h1 h2
    simp only [getModelProfile, h1, h2]
  · intro h
    have h405 := h "405b" (by simp)
    have h70 := h "70b" (by simp)
    have h34 := h "34b" (by simp)
    have h13 := h "13b" (by simp)
    have h8 := h "8b" (by simp)
    have h7 := h "7b" (by simp)
    have h3 := h "3b" (by simp)
    have h1 := h "1b" (by simp)
    simp only [estimateModelProfile, h405, h70, h34, h13, h8, h7, h3, h1,
      Bool.false_eq_true, if_false]

/-- Witness for `hybrid_routing_rule` at `llama3:70b`, a table entry in the
14–70B band with `requires_distributed = True`. -/
theorem hybrid_routing_rule_witness :
    shouldUseDistributed true "llama3:70b" =
      (getModelProfile "llama3:70b").requiresDistributed :=
  (hybrid_routing_rule "llama3:70b").2.2.1 (by decide) (by decide)

/-! ## JSON values and Python `str()` -/

/-- A parsed JSON value (Python numbers restricted to integers, which is all
the narrative-extraction claims touch). -/
inductive Json where
  | null
  | bool (b : Bool)
  | num (n : Int)
  | str (s : String)
  | arr (items : List Json)
  | obj (fields : List (String × Json))

/-- Python truthiness of a JSON value. -/
def Json.truthy : Json → Bool
  | .null => false
  | .bool b => b
  | .num n => decide (n ≠ 0)
  | .str s => !s.data.isEmpty
  | .arr items => !items.isEmpty
  | .obj fields => !fields.isEmpty

/-- `", ".join(...)`. -/
def joinComma : List String → String
  | [] => ""
  | [s] => s
  | s :: rest => s ++ ", " ++ joinComma rest

mutual

/-- Python `repr` of a JSON value (string escaping inside quotes is not
modelled; only the shape matters to the claims). -/
def pyRepr : Json → String
  | .null => "None"
  | .bool true => "True"
  | .bool false => "False"
  | .num n => toString n
  | .str s => "'" ++ s ++ "'"
  | .arr items => "[" ++ joinComma (pyReprList items) ++ "]"
  | .obj fields => "\x7b" ++ joinComma (pyReprFields fields) ++ "\x7d"

def pyReprList : List Json → List String
  | [] => []
  | j :: rest => pyRepr j :: pyReprList rest

def pyReprFields : List (String × Json) → List String
  | [] => []
  | (k, v) :: rest => ("'" ++ k ++ "': " ++ pyRepr v) :: pyReprFields rest

end

/-- Python `str()` of a JSON value: the string itself for strings, `repr`
otherwise. -/
def pyStr : Json → String
  | .str s => s
  | j => pyRepr j

/-- `Nat.toDigitsCore` with positive fuel strictly grows its accumulator. -/
theorem toDigitsCore_length_lt (b : Nat) (fuel : Nat) :
    ∀ (n : Nat) (ds : List Char),
      ds.length < (Nat.toDigitsCore b (fuel + 1) n ds).length := by
  induction fuel with
  | zero =>
    intro n ds
    show ds.length < (if n / b = 0 then (n % b).digitChar :: ds
      else Nat.toDigitsCore b 0 (n / b) ((n % b).digitChar :: ds)).length
    split
    · simp
    · show ds.length < ((n % b).digitChar :: ds).length
      simp
  | succ fuel ih =>
    intro n ds
    show ds.length < (if n / b = 0 then (n % b).digitChar :: ds
      else Nat.toDigitsCore b (fuel + 1) (n / b) ((n % b).digitChar :: ds)).length
    split
    · simp
    · calc ds.length < ((n % b).digitChar :: ds).length := by simp
        _ < _ := ih (n / b) _

theorem natRepr_ne_empty (n : Nat) : Nat.repr n ≠ "" := by
  intro h
  have hd : (Nat.toDigits 10 n) = [] := congrArg String.data h
  have := toDigitsCore_length_lt 10 n n []
  rw [show Nat.toDigitsCore 10 (n + 1) n [] = Nat.toDigits 10 n from rfl, hd] at this
  simp at this

theorem intToString_ne_empty (n : Int) : toString n ≠ "" := by
  show Int.repr n ≠ ""
  cases n with
  | ofNat m => exact natRepr_ne_empty m
  | negSucc m =>
    intro h
    have : ('-' :: (Nat.repr m.succ).data) = [] := by
      have := congrArg String.data h
      rw [show Int.repr (Int.negSucc m) = "-" ++ Nat.repr m.succ from rfl] at this
      rw [String.data_append] at this
      exact this
    cases this

theorem ne_empty_of_data_ne {s : String} (h : s.data ≠ []) : s ≠ "" :=
  fun he => h (congrArg String.data he)

/-- A truthy JSON value has a non-empty Python `str()`. -/
theorem truthy_pyStr_ne_empty (j : Json) (h : j.truthy = true) :
    pyStr j ≠ "" := by
  cases j with
  | null => cases h
  | bool b =>
    cases b
    · cases h
    · simp only [pyStr, pyRepr]
      decide
  | num n =>
    simp only [pyStr, pyRepr]
    exact intToString_ne_empty n
  | str s =>
    have hd : s.data ≠ [] := by
      intro he
      simp only [Json.truthy] at h
      rw [he] at h
      simp at h
    simp only [pyStr]
    exact ne_empty_of_data_ne hd
  | arr items =>
    simp only [pyStr, pyRepr]
    apply ne_empty_of_data_ne
    rw [String.data_append, String.data_append]
    simp
  | obj fields =>
    simp only [pyStr, pyRepr]
    apply ne_empty_of_data_ne
    rw [String.data_append, String.data_append]
    simp

/-! ## `distributed_orchestrator.py` — narrative extraction -/

/-- The priority key list of
`DistributedOrchestrator._extract_narrative_from_json`. -/
def priorityKeys : List String :=
  ["data", "story", "detailed_explanation", "context", "final_output",
   "summary", "content", "narrative"]

/-- Python `s.startswith('_')`. -/
def pyStartsWithUnderscore (s : String) : Bool :=
  match s.data with
  | c :: _ => c == '_'
  | [] => false

/-- Python `s.islower()` (ASCII view): at least one cased character, and no
cased character is uppercase. -/
def pyIsLowerStr (s : String) : Bool :=
  s.data.any (fun c => c.isLower || c.isUpper) && s.data.all (fun c => !c.isUpper)

/-- Truthiness of Python `s.strip()`: the string has a non-whitespace
character. -/
def hasNonWs (s : String) : Bool := s.data.any (fun c => !(isPyWs c))

/-- The first priority-key loop: `if key in content and content[key]` in
priority-key order, skipping keys that are absent or hold a falsy value. -/
def findPriority (fields : List (String × Json)) : List String → Option Json
  | [] => none
  | k :: rest =>
    match dictGet? fields k with
    | some v => if v.truthy then some v else findPriority fields rest
    | none => findPriority fields rest

/-- The second loop's condition: a string value longer than 50 characters
under a key that is not metadata-like (does not start with `'_'` and is not
all-lowercase). -/
def longValuePred (p : String × Json) : Bool :=
  (match p.2 with
   | .str s => decide (50 < s.data.length)
   | _ => false)
  && !(pyStartsWithUnderscore p.1) && !(pyIsLowerStr p.1)

/-- The third loop's condition: any string value that is non-empty after
stripping whitespace. -/
def nonWsValuePred (p : String × Json) : Bool :=
  match p.2 with
  | .str s => hasNonWs s
  | _ => false

/-- `DistributedOrchestrator._extract_narrative_from_json`: `""` for `None`;
for a dict, the priority-key loop, then the long-string loop over items, then
the any-non-whitespace-string loop, else `""`; for any other value, `str` of
it when truthy, `""` otherwise. -/
def extractNarrativeFromJson : Json → String
  | .null => ""
  | .obj fields =>
    match findPriority fields priorityKeys with
    | some v => pyStr v
    | none =>
      match fields.find? longValuePred with
      | some p => pyStr p.2
      | none =>
        match fields.find? nonWsValuePred with
        | some p => pyStr p.2
        | none => ""
  | j => if j.truthy then pyStr j else ""

theorem findPriority_truthy {fields : List (String × Json)}
    {ks : List String} {v : Json} (h : findPriority fields ks = some v) :
    v.truthy = true := by
  induction ks with
  | nil => cases h
  | cons k rest ih =>
    unfold findPriority at h
    rcases hd : dictGet? fields k with _ | w
    · rw [hd] at h
      dsimp only at h
      exact ih h
    · rw [hd] at h
      dsimp only at h
      by_cases hw : w.truthy = true
      · rw [if_pos hw] at h
        cases h
        exact hw
      · rw [if_neg hw] at h
        exact ih h

/-- **C9** counterexample.  The dict `{"a": " "}` has a string value of
length 1, yet the extractor returns the empty string: the key is not a
priority key, the value is not longer than 50 characters, and it is
whitespace-only, so the final loop's `value.strip()` test rejects it. -/
theorem narrative_extractor_counterexample :
    (" " : String).data.length = 1 ∧
    extractNarrativeFromJson (Json.obj [("a", Json.str " ")]) = "" := by
  exact ⟨by decide, by rfl⟩

/-- **C9** (amended).  For every dict with at least one string value that is
non-empty after stripping whitespace, the extractor returns a non-empty
string (a whitespace-only value of length ≥ 1 does not suffice — see the
counterexample); when a priority key holds a truthy value, the extractor
returns `str` of the first such value. -/
theorem narrative_extractor_robustness :
    (∀ (fields : List (String × Json)),
      (∃ k s, (k, Json.str s) ∈ fields ∧ hasNonWs s = true) →
      extractNarrativeFromJson (Json.obj fields) ≠ "") ∧
    (∀ (fields : List (String × Json)) (v : Json),
      findPriority fields priorityKeys = some v →
      extractNarrativeFromJson (Json.obj fields) = pyStr v) := by
  constructor
  · rintro fields ⟨k, s, hmem, hs⟩
    show (match findPriority fields priorityKeys with
      | some v => pyStr v
      | none => _) ≠ ""
    rcases hp : findPriority fields priorityKeys with _ | v
    · rcases hl : fields.find? longValuePred with _ | p
      · rcases hn : fields.find? nonWsValuePred with _ | p
        · have hpred : nonWsValuePred (k, Json.str s) = true := by
            simpa [nonWsValuePred] using hs
          exact absurd hpred (List.find?_eq_none.mp hn _ hmem)
        · have hcond := List.find?_some hn
          obtain ⟨k', v'⟩ := p
          have hstr : ∃ s', v' = Json.str s' ∧ hasNonWs s' = true := by
            cases v' with
            | str s' => exact ⟨s', rfl, by simpa [nonWsValuePred] using hcond⟩
            | null => simp [nonWsValuePred] at hcond
            | bool b => simp [nonWsValuePred] at hcond
            | num n => simp [nonWsValuePred] at hcond
            | arr l => simp [nonWsValuePred] at hcond
            | obj l => simp [nonWsValuePred] at hcond
          obtain ⟨s', rfl, hws⟩ := hstr
          dsimp only
          simp only [pyStr]
          apply ne_empty_of_data_ne
          intro he
          rw [hasNonWs, he] at hws
          cases hws
      · have hcond := List.find?_some hl
        obtain ⟨k', v'⟩ := p
        have hstr : ∃ s', v' = Json.str s' ∧ 50 < s'.data.length := by
          cases v' with
          | str s' =>
            simp only [longValuePred, Bool.and_eq_true, decide_eq_true_eq] at hcond
            exact ⟨s', rfl, hcond.1.1⟩
          | null => simp [longValuePred] at hcond
          | bool b => simp [longValuePred] at hcond
          | num n => simp [longValuePred] at hcond
          | arr l => simp [longValuePred] at hcond
          | obj l => simp [longValuePred] at hcond
        obtain ⟨s', rfl, hlen⟩ := hstr
        dsimp only
        simp only [pyStr]
        apply ne_empty_of_data_ne
        intro he
        rw [he] at hlen
        simp at hlen
    · dsimp only
      exact truthy_pyStr_ne_empty v (findPriority_truthy hp)
  · intro fields v hp
    show (match findPriority fields priorityKeys with
      | some v => pyStr v
      | none => _) = pyStr v
    rw [hp]

/-- Witness for `narrative_extractor_robustness` at `{"context": "E = mc^2"}`. -/
theorem narrative_extractor_robustness_witness :
    extractNarrativeFromJson (Json.obj [("context", Json.str "E = mc^2")]) ≠ "" :=
  narrative_extractor_robustness.1 [("context", Json.str "E = mc^2")]
    ⟨"context", "E = mc^2", by simp, by decide⟩

/-! ## `distributed_orchestrator.py` — long-form focus areas and chunk
prompts -/

/-- The content types of the long-form engine's classifier. -/
inductive ContentType where
  | research | analysis | explanation | discussion | storytelling | general
  deriving Repr, DecidableEq

/-- Research focus area 1 of `_get_focus_areas_for_chunks`. -/
def focusR1 : String :=
  "ONLY fundamental concepts, basic definitions, and foundational principles (NO applications, NO experiments, NO math details)"

/-- Research focus area 2. -/
def focusR2 : String :=
  "ONLY mathematical formalism, equations, theoretical frameworks, and technical mechanisms (NO basic concepts, NO applications)"

/-- Research focus area 3. -/
def focusR3 : String :=
  "ONLY experimental evidence, empirical studies, observational data, and research findings (NO theory, NO applications)"

/-- Research focus area 4. -/
def focusR4 : String :=
  "ONLY real-world applications, practical implementations, use cases, and industry adoption (NO theory, NO experiments)"

/-- Research focus area 5. -/
def focusR5 : String :=
  "ONLY current research frontiers, unsolved problems, controversies, and future research directions (NO basics, NO current applications)"

/-- The per-content-type focus-area dicts of
`DistributedOrchestrator._get_focus_areas_for_chunks` (the `else` branch is
the generic fallback, covering storytelling and general). -/
def focusAreaTable : ContentType → List (Nat × String)
  | .research =>
    [(1, focusR1), (2, focusR2), (3, focusR3), (4, focusR4), (5, focusR5)]
  | .analysis =>
    [(1, "overview and initial assessment"),
     (2, "strengths, advantages, and positive aspects"),
     (3, "weaknesses, limitations, and challenges"),
     (4, "comparative analysis and alternatives"),
     (5, "implications and conclusions")]
  | .explanation =>
    [(1, "basic overview and introduction"),
     (2, "step-by-step process and methodology"),
     (3, "common pitfalls and troubleshooting"),
     (4, "advanced techniques and best practices"),
     (5, "practical examples and use cases")]
  | .discussion =>
    [(1, "main arguments and initial perspectives"),
     (2, "alternative viewpoints and counter-arguments"),
     (3, "evidence and supporting data"),
     (4, "synthesis and balanced analysis"),
     (5, "conclusions and implications")]
  | _ =>
    [(1, "introduction and overview"),
     (2, "core concepts and details"),
     (3, "examples and applications"),
     (4, "advanced topics"),
     (5, "summary and conclusions")]

/-- `_get_focus_areas_for_chunks`: keep only the areas numbered up to the
requested chunk count. -/
def getFocusAreasForChunks (ct : ContentType) (totalChunks : Nat) :
    List (Nat × String) :=
  (focusAreaTable ct).filter (fun p => p.1 ≤ totalChunks)

/-- The non-storytelling continuation prompt of `_run_longform_parallel`
(chunks 2..N).  `preview` stands for the ≤200-character preview of chunk 1's
extracted narrative that the f-string splices in.  The string is
right-parenthesized so the proofs can peel the prefix; `++` is associative,
so the value is the f-string's. -/
def continuationPrompt (query : String) (i chunksNeeded : Nat)
    (focus preview : String) : String :=
  "Research topic: " ++ (query ++ ("\n\nPart " ++ (toString i ++ (" of " ++
    (toString chunksNeeded ++
      (". Write 500-600 words focused SPECIFICALLY on: " ++ (focus ++
        ("\n\nPrevious part covered: " ++ (preview ++
          ("...\n\nCRITICAL REQUIREMENTS:\n- Focus EXCLUSIVELY on " ++
            (focus ++
              " - DO NOT discuss other aspects\n- Write ENTIRELY NEW content - ZERO overlap with Part 1\n- Include technical details, equations, data, specific examples\n- If you mention something from Part 1, you MUST add NEW information about it\n- Be technical and specific, not vague or repetitive\n\nOutput JSON with 'context' field containing your detailed explanation.")))))))))))

/-- The prompt the parallel loop builds for chunk `i` of `chunksNeeded` for
non-storytelling content: the focus area is
`focus_areas.get(i, "additional aspects")`. -/
def chunkPrompt (query : String) (ct : ContentType) (i chunksNeeded : Nat)
    (preview : String) : String :=
  continuationPrompt query i chunksNeeded
    ((dictGet? (getFocusAreasForChunks ct chunksNeeded) i).getD
      "additional aspects")
    preview

theorem strContains_left (f t : String) : strContains (f ++ t) f := by
  unfold strContains
  rw [String.data_append]
  exact ⟨[], t.data, by simp⟩

theorem strContains_appendL (s t f : String) (h : strContains t f) :
    strContains (s ++ t) f := by
  unfold strContains at *
  rw [String.data_append]
  exact h.trans (List.suffix_append s.data t.data).isInfix

theorem strContains_trans {s t u : String} (h1 : strContains s t)
    (h2 : strContains t u) : strContains s u :=
  List.IsInfix.trans h2 h1

/-- Every continuation prompt contains its focus string verbatim. -/
theorem prompt_contains_focus (query : String) (i N : Nat)
    (focus preview : String) :
    strContains (continuationPrompt query i N focus preview) focus := by
  unfold continuationPrompt
  apply strContains_appendL
  apply strContains_appendL
  apply strContains_appendL
  apply strContains_appendL
  apply strContains_appendL
  apply strContains_appendL
  apply strContains_appendL
  exact strContains_left _ _

/-- **C7** (amended).  For content type `research` and any chunk count
`2 ≤ N ≤ 5`, the prompt of each non-initial chunk `i` contains, verbatim, the
focus-area string assigned to chunk `i` in the `N`-prefix of the research
focus table, and that string is assigned to no other chunk.  For `N = 5`, the
prompts of chunks 2–5 contain "mathematical formalism", "experimental
evidence" (the table's chunk-3 entry; *not* "empirical evidence" — see the
counterexample), "applications" and "frontiers" respectively. -/
theorem longform_focus_coverage :
    (∀ (query preview : String) (N i : Nat), 2 ≤ N → N ≤ 5 → 2 ≤ i → i ≤ N →
      ∃ focus,
        dictGet? (getFocusAreasForChunks .research N) i = some focus ∧
        chunkPrompt query .research i N preview =
          continuationPrompt query i N focus preview ∧
        strContains (chunkPrompt query .research i N preview) focus ∧
        ∀ j, 1 ≤ j → j ≤ N → j ≠ i →
          dictGet? (getFocusAreasForChunks .research N) j ≠ some focus) ∧
    (∀ (query preview : String),
      strContains (chunkPrompt query .research 2 5 preview)
        "mathematical formalism" ∧
      strContains (chunkPrompt query .research 3 5 preview)
        "experimental evidence" ∧
      strContains (chunkPrompt query .research 4 5 preview)
        "applications" ∧
      strContains (chunkPrompt query .research 5 5 preview)
        "frontiers") := by
  constructor
  · intro query preview N i hN1 hN2 hi1 hi2
    interval_cases N <;> interval_cases i <;>
      refine ⟨_, rfl, rfl, prompt_contains_focus query _ _ _ preview, ?_⟩ <;>
      (intro j hj1 hj2 hjne
       interval_cases j <;> first | exact absurd rfl hjne | decide)
  · intro query preview
    refine ⟨?_, ?_, ?_, ?_⟩
    · exact strContains_trans
        (prompt_contains_focus query 2 5 focusR2 preview) (by decide)
    · exact strContains_trans
        (prompt_contains_focus query 3 5 focusR3 preview) (by decide)
    · exact strContains_trans
        (prompt_contains_focus query 4 5 focusR4 preview) (by decide)
    · exact strContains_trans
        (prompt_contains_focus query 5 5 focusR5 preview) (by decide)

/-- Witness for `longform_focus_coverage` at `N = 5`, `i = 3`. -/
theorem longform_focus_coverage_witness :
    ∃ focus,
      dictGet? (getFocusAreasForChunks .research 5) 3 = some focus ∧
      chunkPrompt "Explain quantum entanglement" .research 3 5 "" =
        continuationPrompt "Explain quantum entanglement" 3 5 focus "" ∧
      strContains (chunkPrompt "Explain quantum entanglement" .research 3 5 "")
        focus ∧
      ∀ j, 1 ≤ j → j ≤ 5 → j ≠ 3 →
        dictGet? (getFocusAreasForChunks .research 5) j ≠ some focus :=
  longform_focus_coverage.1 "Explain quantum entanglement" "" 5 3
    (by decide) (by decide) (by decide) (by decide)

/-- A Boolean infix matcher equivalent to `List.IsInfix`, used to evaluate
substring searches over long concrete prompts by kernel reduction. -/
def infixOfB (pat : List Char) : List Char → Bool
  | [] => pat.isEmpty
  | c :: rest => pat.isPrefixOf (c :: rest) || infixOfB pat rest

theorem infixOfB_iff (pat : List Char) (l : List Char) :
    infixOfB pat l = true ↔ pat <:+: l := by
  induction l with
  | nil =>
    simp only [infixOfB, List.isEmpty_iff]
    constructor
    · intro h; rw [h]
    · intro h; exact List.eq_nil_of_infix_nil h
  | cons c rest ih =>
    simp only [infixOfB, Bool.or_eq_true, ih]
    constructor
    · rintro (h | h)
      · exact (List.IsPrefix.isInfix (List.isPrefixOf_iff_prefix.mp h))
      · exact h.trans (List.suffix_cons c rest).isInfix
    · intro h
      rcases h with ⟨s, t, he⟩
      cases s with
      | nil =>
        left
        apply List.isPrefixOf_iff_prefix.mpr
        exact ⟨t, by simpa using he⟩
      | cons x xs =>
        right
        have : xs ++ pat ++ t = rest := by
          simpa using congrArg List.tail he
        exact ⟨xs, t, this⟩

set_option maxRecDepth 8000 in
/-- **C7** counterexample.  For the spec's own scenario (`research`, `N = 5`,
query "Explain quantum entanglement"), the chunk-3 prompt does *not* contain
the claimed string "empirical evidence": the table's entry reads
"experimental evidence, empirical studies, …". -/
theorem longform_focus_counterexample :
    ¬ strContains
      (chunkPrompt "Explain quantum entanglement" .research 3 5 "")
      "empirical evidence" := by
  have hf : infixOfB "empirical evidence".data
      (chunkPrompt "Explain quantum entanglement" ContentType.research 3 5 "").data
      = false := by decide
  intro h
  have ht := (infixOfB_iff _ _).mpr h
  rw [hf] at ht
  cases ht

/-! ## `json_pipeline.py` / `agents/base_agent.py` — output wrapping -/

/-- Python `isinstance(x, dict)`. -/
def Json.isObj : Json → Bool
  | .obj _ => true
  | _ => false

/-- The text wrapper branch of `standardize_to_json`: the raw text is
stripped and stored under `data.content`. -/
def standardizeTextWrap (agentName rawOutput : String) : Json :=
  Json.obj [("agent", Json.str agentName), ("status", Json.str "success"),
            ("format", Json.str "text"),
            ("data", Json.obj [("content", Json.str (pyStrip rawOutput))])]

/-- `standardize_to_json`, parameterized by the result of
`extract_json_from_text(raw_output)`; the wrapper's shape holds for every
extractor outcome.  A truthy dict is wrapped as `format="json"`, anything
else falls back to the text wrapper. -/
def standardizeToJson (agentName rawOutput : String)
    (extracted : Option Json) : Json :=
  match extracted with
  | some j =>
    if j.truthy && j.isObj then
      Json.obj [("agent", Json.str agentName), ("status", Json.str "success"),
                ("format", Json.str "json"), ("data", j)]
    else standardizeTextWrap agentName rawOutput
  | none => standardizeTextWrap agentName rawOutput

/-- The error result built by `BaseAgent.call_ollama` when the HTTP call (or
its no-`format` retry) raises: `status="error"`, `format="text"`, and `data`
holding only an `error` message — no `content` field. -/
def callOllamaErrorResult (agentName errMsg : String) : Json :=
  Json.obj [("agent", Json.str agentName), ("status", Json.str "error"),
            ("format", Json.str "text"),
            ("data", Json.obj [("error", Json.str errMsg)])]

/-- `BaseAgent.call_ollama` on the non-TrustCall path, parameterized by the
HTTP outcome (`ok` with the response's `response` field, or the exception
message) and by the JSON extractor. -/
def callOllamaStandardized (agentName : String)
    (response : Except String String) (extract : String → Option Json) : Json :=
  match response with
  | .ok rawOutput => standardizeToJson agentName rawOutput (extract rawOutput)
  | .error e => callOllamaErrorResult agentName e

/-- **C8** counterexample.  (1) On an HTTP failure the agent's public result
has `format = "text"` but its `data` dict holds `error`, not `content`.
(2) On the text-wrap path, `data.content` holds the *stripped* raw output:
for raw output `" hi "` it stores `"hi"`, not the raw text. -/
theorem agent_output_wrapper_counterexample :
    (∃ fields d,
      callOllamaStandardized "Researcher" (.error "timeout") (fun _ => none) =
        Json.obj fields ∧
      dictGet? fields "format" = some (Json.str "text") ∧
      dictGet? fields "data" = some (Json.obj d) ∧
      dictGet? d "content" = none) ∧
    standardizeToJson "Researcher" " hi " none =
      Json.obj [("agent", Json.str "Researcher"),
                ("status", Json.str "success"),
                ("format", Json.str "text"),
                ("data", Json.obj [("content", Json.str "hi")])] ∧
    (" hi " : String) ≠ "hi" :=
  ⟨⟨_, _, rfl, rfl, rfl, rfl⟩, rfl, by decide⟩

/-- **C8** (amended).  Results produced through `standardize_to_json` are
dicts with fields `agent`, `status = "success"`, `format ∈ {json, text}` and
a dict-valued `data`; when `format` is `"text"`, `data.content` holds the raw
output *stripped of surrounding whitespace*.  The HTTP-error paths of
`call_ollama` return `status = "error"`, `format = "text"` and
`data = {"error": message}` with no `content` field.  (The TrustCall
validation path can additionally return the model's parsed JSON unwrapped,
without any of these fields.) -/
theorem agent_output_wrapper_shape :
    (∀ (name raw : String) (extracted : Option Json),
      ∃ fields,
        standardizeToJson name raw extracted = Json.obj fields ∧
        dictGet? fields "agent" = some (Json.str name) ∧
        dictGet? fields "status" = some (Json.str "success") ∧
        (dictGet? fields "format" = some (Json.str "json") ∨
          dictGet? fields "format" = some (Json.str "text")) ∧
        (∃ d, dictGet? fields "data" = some d ∧
          (extracted.isSome → d.isObj = true) ∧
          (dictGet? fields "format" = some (Json.str "text") →
            d = Json.obj [("content", Json.str (pyStrip raw))]))) ∧
    (∀ (name e : String),
      ∃ fields,
        callOllamaErrorResult name e = Json.obj fields ∧
        dictGet? fields "agent" = some (Json.str name) ∧
        dictGet? fields "status" = some (Json.str "error") ∧
        dictGet? fields "format" = some (Json.str "text") ∧
        dictGet? fields "data" = some (Json.obj [("error", Json.str e)])) := by
  constructor
  · intro name raw extracted
    rcases extracted with _ | j
    · exact ⟨_, rfl, rfl, rfl, Or.inr rfl, _, rfl,
        fun h => by simp at h, fun _ => rfl⟩
    · by_cases hj : (j.truthy && j.isObj) = true
      · refine ⟨[("agent", Json.str name), ("status", Json.str "success"),
            ("format", Json.str "json"), ("data", j)], ?_, rfl, rfl,
            Or.inl rfl, j, rfl, fun _ => ((Bool.and_eq_true _ _).mp hj).2, ?_⟩
        · show standardizeToJson name raw (some j) = _
          rw [standardizeToJson, if_pos hj]
        · intro h
          injection h with h2
          injection h2 with h3
          exact absurd h3 (by decide)
      · refine ⟨[("agent", Json.str name), ("status", Json.str "success"),
            ("format", Json.str "text"),
            ("data", Json.obj [("content", Json.str (pyStrip raw))])], ?_, rfl,
            rfl, Or.inr rfl, _, rfl, fun _ => rfl, fun _ => rfl⟩
        show standardizeToJson name raw (some j) = _
        rw [standardizeToJson, if_neg hj]
        rfl
  · intro name e
    exact ⟨_, rfl, rfl, rfl, rfl, rfl⟩

/-- Witness for `agent_output_wrapper_shape` at a concrete raw output with no
extractable JSON. -/
theorem agent_output_wrapper_shape_witness :
    ∃ fields,
      standardizeToJson "Researcher" " hi " none = Json.obj fields ∧
      dictGet? fields "agent" = some (Json.str "Researcher") ∧
      dictGet? fields "status" = some (Json.str "success") ∧
      (dictGet? fields "format" = some (Json.str "json") ∨
        dictGet? fields "format" = some (Json.str "text")) ∧
      (∃ d, dictGet? fields "data" = some d ∧
        ((none : Option Json).isSome → d.isObj = true) ∧
        (dictGet? fields "format" = some (Json.str "text") →
          d = Json.obj [("content", Json.str (pyStrip " hi "))])) :=
  agent_output_wrapper_shape.1 "Researcher" " hi " none

end SynLlamas
